import Mathlib

/-!
Shallow embedding of the feed-to-worker reconciliation engine of
src/ldes-consumer/kgap/spawn_instances.py.

Feeds are modelled as records holding the configuration keys the script
reads; the Docker runtime is an association list from container name to a
running flag; every subprocess call that matters (docker run / stop /
remove / logs) is recorded in an operation trace.  Whether a freshly
created container is still running two seconds after `docker run`
(the script sleeps and then inspects) is an oracle carried in the
engine configuration.
-/

namespace KGap

/-- Value of the per-feed environment sub-map in the YAML config:
either a mapping of string to string or some non-mapping value. -/
inductive EnvField where
  | map (entries : List (String × String))
  | notMap
deriving DecidableEq

/-- One feed entry of the YAML configuration, with the keys read by
spawn_instances.py.  The runtime keys active / process / failure_reason
live in the same dict in Python and are therefore fields here too. -/
structure Feed where
  url : Option String := none
  sparql_endpoint : Option String := none
  target_graph : Option String := none
  polling_interval : Option Nat := none
  environment : Option EnvField := none
  active : Option Bool := none
  process : Option Nat := none
  failure_reason : Option String := none
deriving DecidableEq

/-- Declarative part of a feed: every field except the runtime fields
active, process and failure_reason (the dict comprehension in sync_feeds
lines 515-524 excludes exactly those three keys). -/
def Feed.declarative (f : Feed) :
    Option String × Option String × Option String × Option Nat × Option EnvField :=
  (f.url, f.sparql_endpoint, f.target_graph, f.polling_interval, f.environment)

/-- Docker state: at most conceptually one container per name; each entry
maps a container name to its State.Running flag. -/
abbrev Docker := List (String × Bool)

/-- Trace element: one docker CLI invocation performed by the engine. -/
inductive DockerOp where
  | run (name : String) (feed : Feed)
  | stop (name : String)
  | remove (name : String)
  | captureLogs (name : String)
deriving DecidableEq

/-- Container name targeted by a docker operation. -/
def DockerOp.name : DockerOp → String
  | .run n _ => n
  | .stop n => n
  | .remove n => n
  | .captureLogs n => n

/-- Engine-wide configuration: the globals read from the environment at
module load, plus the start oracle (whether a container freshly created
by docker run is observed running at the inspect that follows). -/
structure Config where
  pfx : String
  remove_containers : Bool
  default_sparql_endpoint : String
  ldes_loglevel : String
  startOk : String → Bool

/-- Mutable world: docker state plus the accumulated operation trace. -/
structure Sys where
  docker : Docker
  ops : List DockerOp
deriving DecidableEq

/-- Container name for a feed: the engine-wide name part, a dash, and the
feed name (docker_container_name). -/
def docker_container_name (cfg : Config) (feedname : String) : String :=
  cfg.pfx ++ "-" ++ feedname

/-- Model of check_docker_container_running: docker inspect reports true
exactly when the named container exists and its State.Running is true. -/
def check_docker_container_running (cfg : Config) (d : Docker) (feedname : String) : Bool :=
  match List.lookup (docker_container_name cfg feedname) d with
  | some r => r
  | none => false

/-- Model of docker_container_remove: a no-op when the container does not
exist or when container removal is disabled by configuration; otherwise
the container is force-removed and a remove operation is recorded. -/
def docker_container_remove (cfg : Config) (s : Sys) (feedname : String) : Sys :=
  let n := docker_container_name cfg feedname
  if (List.lookup n s.docker).isNone then s
  else if !cfg.remove_containers then s
  else { docker := s.docker.filter (fun kv => !(kv.1 == n)),
         ops := s.ops ++ [DockerOp.remove n] }

/-- Model of docker_container_stop: issues docker stop, after which the
named container (if any) is no longer running. -/
def docker_container_stop (cfg : Config) (s : Sys) (feedname : String) : Sys :=
  let n := docker_container_name cfg feedname
  { docker := s.docker.map (fun kv => if kv.1 == n then (kv.1, false) else kv),
    ops := s.ops ++ [DockerOp.stop n] }

/-- Model of docker_container_capture_logs: records the docker logs call. -/
def docker_container_capture_logs (cfg : Config) (s : Sys) (feedname : String) : Sys :=
  { s with ops := s.ops ++ [DockerOp.captureLogs (docker_container_name cfg feedname)] }

/-- Model of fail_feed: marks the feed inactive and stores the reason. -/
def fail_feed (feed : Feed) (reason : String) : Feed :=
  { feed with active := some false, failure_reason := some reason }

/-- Model of active_feed: marks the feed active, stores the process
handle, and pops any previous failure reason. -/
def active_feed (feed : Feed) : Feed :=
  { feed with active := some true, process := some 1, failure_reason := none }

/-- Model of docker_container_start: docker run creates the container only
when the name is free (an existing container of the same name makes the
run fail with a name conflict and leaves docker unchanged); the script
then inspects the name and either marks the feed active or captures
logs, removes the container and marks the feed failed. -/
def docker_container_start (cfg : Config) (s : Sys) (feedname : String) (feed : Feed) :
    Feed × Sys :=
  let n := docker_container_name cfg feedname
  let docker1 :=
    if (List.lookup n s.docker).isSome then s.docker
    else s.docker ++ [(n, cfg.startOk n)]
  let s1 : Sys := { docker := docker1, ops := s.ops ++ [DockerOp.run n feed] }
  if check_docker_container_running cfg s1.docker feedname then
    (active_feed feed, s1)
  else
    let s2 := docker_container_capture_logs cfg s1 feedname
    let s3 := docker_container_remove cfg s2 feedname
    (fail_feed feed "Container failed to start.", s3)

/-- Model of spawn_feed_instance: reject a feed without url, reject a feed
whose container is already running, otherwise remove any stale container
and start a fresh one. -/
def spawn_feed_instance (cfg : Config) (s : Sys) (feedname : String) (feed : Feed) :
    Feed × Sys :=
  if feed.url.isNone then
    (fail_feed feed "Missing URL in feed configuration", s)
  else if check_docker_container_running cfg s.docker feedname then
    (fail_feed feed "Container is already running. Stop it or give a different name.", s)
  else
    let s1 := docker_container_remove cfg s feedname
    docker_container_start cfg s1 feedname feed

/-- Copy of the runtime fields from the old record onto the freshly loaded
entry when the declarative configuration is unchanged (sync_feeds lines
542-547): active and process are always overwritten from the old record;
failure_reason is overwritten only when the old record has one. -/
def copy_runtime (old_feed new_feed : Feed) : Feed :=
  { new_feed with
      active := some (old_feed.active.getD false),
      process := old_feed.process,
      failure_reason :=
        match old_feed.failure_reason with
        | some r => some r
        | none => new_feed.failure_reason }

/-- Handling of one feed present in both the old state and the new
configuration (sync_feeds lines 508-547): when the declarative parts
differ, stop the old container if running, remove it and spawn with the
new entry; otherwise keep the runtime state of the old record. -/
def process_common (cfg : Config) (s : Sys) (old_feed : Feed) (feedname : String)
    (new_feed : Feed) : Feed × Sys :=
  if old_feed.declarative = new_feed.declarative then
    (copy_runtime old_feed new_feed, s)
  else
    let s1 := if check_docker_container_running cfg s.docker feedname
              then docker_container_stop cfg s feedname else s
    let s2 := docker_container_remove cfg s1 feedname
    spawn_feed_instance cfg s2 feedname new_feed

/-- Handling of one feed removed from the configuration (sync_feeds lines
495-506): stop the container if it is running, then remove it. -/
def process_removed_one (cfg : Config) (s : Sys) (feedname : String) : Sys :=
  let s1 := if check_docker_container_running cfg s.docker feedname
            then docker_container_stop cfg s feedname else s
  docker_container_remove cfg s1 feedname

/-- State-threading map over the feed entries of a loaded configuration:
each entry is rewritten by the handler while the docker world and the
operation trace are threaded left to right. -/
def mapFeeds (h : Sys → String → Feed → Feed × Sys) :
    Sys → List (String × Feed) → List (String × Feed) × Sys
  | s, [] => ([], s)
  | s, (n, f) :: rest =>
    let p := h s n f
    let q := mapFeeds h p.2 rest
    ((n, p.1) :: q.1, q.2)

/-- Phase-2 handler: entries also present in the old state go through
process_common, the rest are left untouched. -/
def process_entry_common (cfg : Config) (old : List (String × Feed))
    (s : Sys) (n : String) (f : Feed) : Feed × Sys :=
  match List.lookup n old with
  | some old_feed => process_common cfg s old_feed n f
  | none => (f, s)

/-- Phase-3 handler: entries absent from the old state are spawned, the
rest are left untouched. -/
def process_entry_added (cfg : Config) (old : List (String × Feed))
    (s : Sys) (n : String) (f : Feed) : Feed × Sys :=
  match List.lookup n old with
  | some _ => (f, s)
  | none => spawn_feed_instance cfg s n f

/-- Body of one reconciliation pass over a loaded mapping of feeds:
removed feeds first, then the feeds present in both states, then the
added feeds — the phase order of sync_feeds. -/
def sync_body (cfg : Config) (s : Sys) (old new : List (String × Feed)) :
    List (String × Feed) × Sys :=
  let s1 := (old.filter (fun kv => (List.lookup kv.1 new).isNone)).foldl
              (fun acc kv => process_removed_one cfg acc kv.1) s
  let p := mapFeeds (process_entry_common cfg old) s1 new
  let q := mapFeeds (process_entry_added cfg old) p.2 p.1
  q

/-- Global engine state: the feed map (None before the first completed
load) and the last recorded config-file modification time. -/
structure GState where
  feeds : Option (List (String × Feed))
  config_file_mtime : Option Nat
deriving DecidableEq

/-- Result of loading the configuration file inside sync_feeds: the load
can raise (load_config then exits the process), or yield a feeds section
that is or is not a mapping. -/
inductive FeedsSection where
  | notMapping
  | mapping (entries : List (String × Feed))
deriving DecidableEq

/-- Outcome of load_config as observed by sync_feeds. -/
inductive LoadResult where
  | failure
  | success (feeds : FeedsSection)
deriving DecidableEq

/-- Modification-time guard of sync_feeds (line 460): skip when a previous
mtime is recorded and the new one is not strictly greater. -/
def mtime_skip (g : GState) (new_mtime : Nat) : Bool :=
  match g.config_file_mtime with
  | some m => decide (new_mtime ≤ m)
  | none => false

/-- Model of sync_feeds: the modification time read from the file and the
load outcome are inputs; a failing load exits the process (Except.error
with the exit code), every other early return leaves the global state and
the world untouched. -/
def sync_feeds (cfg : Config) (g : GState) (s : Sys) (new_mtime : Nat)
    (load : LoadResult) : Except Nat (GState × Sys) :=
  if new_mtime = 0 then .ok (g, s)
  else if mtime_skip g new_mtime then .ok (g, s)
  else
    match load with
    | .failure => .error 1
    | .success .notMapping => .ok (g, s)
    | .success (.mapping new_feeds) =>
      let old := g.feeds.getD []
      let q := sync_body cfg s old new_feeds
      .ok ({ feeds := some q.1, config_file_mtime := some new_mtime }, q.2)

/-- Model of get_active_feeds: feeds whose active key, defaulted to true
when absent, is true. -/
def get_active_feeds (g : GState) : List (String × Feed) :=
  (g.feeds.getD []).filter (fun kv => kv.2.active.getD true)

/-- Monitoring of one feed in the main loop (lines 633-652): inactive
feeds are skipped; an active feed whose container is running is left
alone; otherwise logs are captured and docker_container_start is called
directly. -/
def monitor_feed (cfg : Config) (s : Sys) (feedname : String) (feed : Feed) :
    Feed × Sys :=
  if !(feed.active.getD true) then (feed, s)
  else if check_docker_container_running cfg s.docker feedname then (feed, s)
  else
    let s1 := docker_container_capture_logs cfg s feedname
    docker_container_start cfg s1 feedname feed

/-- One monitoring tick over the feed map. -/
def monitor_tick (cfg : Config) (s : Sys) (feeds : List (String × Feed)) :
    List (String × Feed) × Sys :=
  mapFeeds (monitor_feed cfg) s feeds

/-- Outcome of the startup portion of main: either the process exits with
a code, or it enters the monitoring loop with the state after the initial
reconciliation. -/
inductive StartupOutcome where
  | exitCode (code : Nat)
  | monitoring (g : GState) (s : Sys)
deriving DecidableEq

/-- Model of the startup portion of main: usage check, initial sync_feeds
from the empty global state, then exit 1 when no feed is active. -/
def main_startup (cfg : Config) (argc : Nat) (s0 : Sys) (new_mtime : Nat)
    (load : LoadResult) : StartupOutcome :=
  if argc < 2 then .exitCode 1
  else
    match sync_feeds cfg { feeds := none, config_file_mtime := none } s0 new_mtime load with
    | .error c => .exitCode c
    | .ok gs =>
      if (get_active_feeds gs.1).isEmpty then .exitCode 1
      else .monitoring gs.1 gs.2

/-- Sequence of reconciliation passes: each element carries the mtime read
and the load outcome of that pass; a pass that exits the process ends the
sequence. -/
def runPasses (cfg : Config) : GState × Sys → List (Nat × LoadResult) → GState × Sys
  | gs, [] => gs
  | gs, (m, l) :: rest =>
    match sync_feeds cfg gs.1 gs.2 m l with
    | .ok gs2 => runPasses cfg gs2 rest
    | .error _ => gs

/-- Reserved environment keys already set by the engine (lines 185-192). -/
def reserved_env_keys : List String :=
  ["LDES", "SPARQL_ENDPOINT", "TARGET_GRAPH", "FAILURE_IS_FATAL", "FOLLOW",
   "POLLING_FREQUENCY"]

/-- Pass-through part of the worker environment built from the per-feed
environment sub-map (lines 180-202): with a mapping, every entry whose
key is not reserved, in order; otherwise nothing. -/
def extra_env_part : Option EnvField → List (String × String)
  | some (.map entries) => entries.filter (fun kv => !(reserved_env_keys.contains kv.1))
  | some .notMap => []
  | none => []

/-- Worker environment assembled by docker_container_start (lines
144-217): the six engine-set variables, the pass-through entries, then
defaults for the variables the pass-through did not set. -/
def build_env (cfg : Config) (feedname : String) (feed : Feed) : List (String × String) :=
  let feed_url := match feed.url with | some u => u | none => "None"
  let endpoint := feed.sparql_endpoint.getD cfg.default_sparql_endpoint
  let graph := feed.target_graph.getD ("urn:kgap:" ++ cfg.pfx ++ ":" ++ feedname)
  let polling_frequency := feed.polling_interval.getD 60 * 1000
  let extra := extra_env_part feed.environment
  let added := extra.map Prod.fst
  [("LDES", feed_url), ("SPARQL_ENDPOINT", endpoint), ("TARGET_GRAPH", graph),
   ("POLLING_FREQUENCY", toString polling_frequency),
   ("FAILURE_IS_FATAL", "false"), ("FOLLOW", "true")]
  ++ extra
  ++ (if added.contains "OPERATION_MODE" then [] else [("OPERATION_MODE", "Sync")])
  ++ (if added.contains "MEMBER_BATCH_SIZE" then [] else [("MEMBER_BATCH_SIZE", "500")])
  ++ (if added.contains "SHAPE" then [] else [("SHAPE", "")])
  ++ (if added.contains "MATERIALIZE" then [] else [("MATERIALIZE", "true")])
  ++ (if added.contains "LOG_LEVEL" then [] else [("LOG_LEVEL", cfg.ldes_loglevel)])

/-- Well-formed docker state: container names are unique. -/
def Docker.Wf (d : Docker) : Prop := (d.map Prod.fst).Nodup

/-- Number of live containers carrying a given name. -/
def liveFor (d : Docker) (n : String) : Nat :=
  (d.filter (fun kv => kv.1 == n && kv.2)).length

/-- Record invariant of the feed dicts: an active record carries no
failure reason. -/
def FeedInv (f : Feed) : Prop := f.active = some true → f.failure_reason = none

/-! Helper lemmas about container names and docker-state lookups. -/

theorem docker_container_name_inj (cfg : Config) {a b : String}
    (h : docker_container_name cfg a = docker_container_name cfg b) : a = b := by
  have hd := congrArg String.data h
  simp only [docker_container_name, String.data_append] at hd
  exact String.ext (List.append_cancel_left hd)

theorem lookup_cons_ite {β : Type} (kk k : String) (b : β) (t : List (String × β)) :
    List.lookup kk ((k, b) :: t) = if kk = k then some b else List.lookup kk t := by
  by_cases h : kk = k
  · simp [List.lookup_cons, h]
  · have hb : (kk == k) = false := by simpa using h
    simp [List.lookup_cons, hb, h]

theorem lookup_filter_out {d : Docker} {k n : String} (hk : k ≠ n) :
    List.lookup k (d.filter (fun kv => !(kv.1 == n))) = List.lookup k d := by
  induction d with
  | nil => rfl
  | cons kv t ih =>
    obtain ⟨k0, b0⟩ := kv
    by_cases h1 : k0 = n
    · subst h1
      have h2 : ¬ k = k0 := hk
      have hb : (!(k0 == k0)) = false := by simp
      simp only [List.filter_cons, hb, Bool.false_eq_true, if_false]
      rw [lookup_cons_ite]
      simp [h2, ih]
    · have hb : (!(k0 == n)) = true := by simpa using h1
      simp only [List.filter_cons, hb, if_true]
      by_cases h2 : k = k0 <;> rw [lookup_cons_ite, lookup_cons_ite] <;> simp [h2, ih]

theorem lookup_stop_map {d : Docker} {k n : String} (hk : k ≠ n) :
    List.lookup k (d.map (fun kv => if kv.1 == n then (kv.1, false) else kv))
      = List.lookup k d := by
  induction d with
  | nil => rfl
  | cons kv t ih =>
    obtain ⟨k0, b0⟩ := kv
    simp only [beq_iff_eq] at ih ⊢
    by_cases h1 : k0 = n
    · subst h1
      have h2 : ¬ k = k0 := hk
      simp only [List.map_cons, if_pos rfl]
      rw [lookup_cons_ite, lookup_cons_ite]
      simp [h2, ih]
    · simp only [List.map_cons, if_neg h1]
      by_cases h2 : k = k0 <;> rw [lookup_cons_ite, lookup_cons_ite] <;> simp [h2, ih]

theorem lookup_append_other {d : Docker} {k n : String} {b : Bool} (hk : k ≠ n) :
    List.lookup k (d ++ [(n, b)]) = List.lookup k d := by
  rw [List.lookup_append]
  have h1 : List.lookup k [(n, b)] = none := by
    rw [lookup_cons_ite]
    simp [hk]
  cases h : List.lookup k d <;> simp [h1, h]

theorem lookup_eq_none_of_not_mem_keys {d : Docker} {k : String}
    (h : k ∉ d.map Prod.fst) : List.lookup k d = none := by
  rw [List.lookup_eq_none_iff]
  intro p hp
  have : p.1 ∈ d.map Prod.fst := List.mem_map_of_mem Prod.fst hp
  have hne : k ≠ p.1 := fun he => h (he ▸ this)
  simpa using hne

theorem not_mem_keys_of_lookup_eq_none {d : Docker} {k : String}
    (h : List.lookup k d = none) : k ∉ d.map Prod.fst := by
  rw [List.lookup_eq_none_iff] at h
  intro hmem
  obtain ⟨p, hp, hfst⟩ := List.mem_map.mp hmem
  have := h p hp
  rw [← hfst] at this
  simp at this

/-! Helper lemmas: well-formed docker states have at most one live
container per name, and every engine operation preserves well-formedness. -/

theorem liveFor_le_one {d : Docker} (hwf : Docker.Wf d) (n : String) :
    liveFor d n ≤ 1 := by
  induction d with
  | nil => simp [liveFor]
  | cons kv t ih =>
    have hwf' : Docker.Wf t := (List.nodup_cons.mp hwf).2
    have hnm : kv.1 ∉ t.map Prod.fst := (List.nodup_cons.mp hwf).1
    by_cases h1 : kv.1 = n ∧ kv.2 = true
    · have hempty : t.filter (fun kv2 => kv2.1 == n && kv2.2) = [] := by
        rw [List.filter_eq_nil_iff]
        intro kv2 hkv2
        intro hcontra
        have h2 : kv2.1 = n := by
          have := (Bool.and_eq_true _ _).mp hcontra
          simpa using this.1
        exact hnm (h1.1 ▸ h2 ▸ List.mem_map_of_mem Prod.fst hkv2)
      simp [liveFor, List.filter, h1.1, h1.2, hempty]
    · have hcase : (kv.1 == n && kv.2) = false := by
        rcases Bool.eq_false_or_eq_true kv.2 with hb | hb
        · have : kv.1 ≠ n := fun he => h1 ⟨he, hb⟩
          simp [this]
        · simp [hb]
      have := ih hwf'
      simpa [liveFor, List.filter, hcase] using this

theorem wf_filter_out {d : Docker} (hwf : Docker.Wf d) (p : String × Bool → Bool) :
    Docker.Wf (d.filter p) :=
  List.Nodup.sublist (List.Sublist.map Prod.fst (List.filter_sublist d)) hwf

theorem wf_stop_map {d : Docker} (hwf : Docker.Wf d) (n : String) :
    Docker.Wf (d.map (fun kv => if kv.1 == n then (kv.1, false) else kv)) := by
  have hkeys : (d.map (fun kv => if kv.1 == n then (kv.1, false) else kv)).map Prod.fst
      = d.map Prod.fst := by
    rw [List.map_map]
    apply List.map_congr_left
    intro kv _
    by_cases h : kv.1 = n <;> simp [h]
  unfold Docker.Wf
  rw [hkeys]
  exact hwf

theorem wf_append_fresh {d : Docker} {n : String} {b : Bool}
    (hwf : Docker.Wf d) (hfresh : List.lookup n d = none) :
    Docker.Wf (d ++ [(n, b)]) := by
  unfold Docker.Wf
  rw [List.map_append]
  simp only [List.map_cons, List.map_nil]
  rw [List.nodup_append]
  refine ⟨hwf, List.nodup_singleton n, ?_⟩
  intro a ha
  simp only [List.mem_singleton]
  intro he
  exact not_mem_keys_of_lookup_eq_none hfresh (he ▸ ha)

theorem capture_docker (cfg : Config) (s : Sys) (feedname : String) :
    (docker_container_capture_logs cfg s feedname).docker = s.docker := rfl

theorem wf_docker_container_remove (cfg : Config) (s : Sys) (feedname : String)
    (hwf : Docker.Wf s.docker) :
    Docker.Wf (docker_container_remove cfg s feedname).docker := by
  simp only [docker_container_remove]
  split
  · exact hwf
  · split
    · exact hwf
    · exact wf_filter_out hwf _

theorem wf_docker_container_stop (cfg : Config) (s : Sys) (feedname : String)
    (hwf : Docker.Wf s.docker) :
    Docker.Wf (docker_container_stop cfg s feedname).docker := by
  simp only [docker_container_stop]
  exact wf_stop_map hwf _

theorem wf_docker_container_start (cfg : Config) (s : Sys) (feedname : String)
    (feed : Feed) (hwf : Docker.Wf s.docker) :
    Docker.Wf (docker_container_start cfg s feedname feed).2.docker := by
  simp only [docker_container_start]
  split
  · split
    · exact hwf
    · exact wf_docker_container_remove _ _ _ hwf
  · next h =>
    have hfresh : List.lookup (docker_container_name cfg feedname) s.docker = none :=
      Option.not_isSome_iff_eq_none.mp (by simpa using h)
    have hwf2 := wf_append_fresh (b := cfg.startOk (docker_container_name cfg feedname)) hwf hfresh
    split
    · exact hwf2
    · exact wf_docker_container_remove _ _ _ hwf2

theorem wf_spawn_feed_instance (cfg : Config) (s : Sys) (feedname : String)
    (feed : Feed) (hwf : Docker.Wf s.docker) :
    Docker.Wf (spawn_feed_instance cfg s feedname feed).2.docker := by
  simp only [spawn_feed_instance]
  split
  · exact hwf
  · split
    · exact hwf
    · exact wf_docker_container_start _ _ _ _ (wf_docker_container_remove _ _ _ hwf)

theorem wf_process_common (cfg : Config) (s : Sys) (old_feed : Feed) (feedname : String)
    (new_feed : Feed) (hwf : Docker.Wf s.docker) :
    Docker.Wf (process_common cfg s old_feed feedname new_feed).2.docker := by
  simp only [process_common]
  split
  · exact hwf
  · apply wf_spawn_feed_instance
    apply wf_docker_container_remove
    split
    · exact wf_docker_container_stop _ _ _ hwf
    · exact hwf

theorem wf_process_removed_one (cfg : Config) (s : Sys) (feedname : String)
    (hwf : Docker.Wf s.docker) :
    Docker.Wf (process_removed_one cfg s feedname).docker := by
  simp only [process_removed_one]
  apply wf_docker_container_remove
  split
  · exact wf_docker_container_stop _ _ _ hwf
  · exact hwf

theorem wf_mapFeeds (h : Sys → String → Feed → Feed × Sys)
    (hh : ∀ s n f, Docker.Wf s.docker → Docker.Wf ((h s n f).2.docker))
    (l : List (String × Feed)) :
    ∀ s : Sys, Docker.Wf s.docker → Docker.Wf ((mapFeeds h s l).2.docker) := by
  induction l with
  | nil => intro s hwf; exact hwf
  | cons nf rest ih =>
    intro s hwf
    obtain ⟨n, f⟩ := nf
    simp only [mapFeeds]
    exact ih _ (hh s n f hwf)

theorem wf_removed_fold (cfg : Config) (l : List (String × Feed)) :
    ∀ s : Sys, Docker.Wf s.docker →
      Docker.Wf ((l.foldl (fun acc kv => process_removed_one cfg acc kv.1) s).docker) := by
  induction l with
  | nil => intro s hwf; exact hwf
  | cons nf rest ih =>
    intro s hwf
    simp only [List.foldl_cons]
    exact ih _ (wf_process_removed_one cfg s nf.1 hwf)

theorem wf_sync_body (cfg : Config) (s : Sys) (old new : List (String × Feed))
    (hwf : Docker.Wf s.docker) :
    Docker.Wf (sync_body cfg s old new).2.docker := by
  simp only [sync_body]
  apply wf_mapFeeds _ (fun s n f hw => ?_) _ _
    (wf_mapFeeds _ (fun s n f hw => ?_) _ _ (wf_removed_fold cfg _ s hwf))
  · simp only [process_entry_added]
    split
    · exact hw
    · exact wf_spawn_feed_instance _ _ _ _ hw
  · simp only [process_entry_common]
    split
    · exact wf_process_common _ _ _ _ _ hw
    · exact hw

theorem wf_sync_feeds (cfg : Config) (g : GState) (s : Sys) (new_mtime : Nat)
    (load : LoadResult) (g2 : GState) (s2 : Sys)
    (hok : sync_feeds cfg g s new_mtime load = .ok (g2, s2))
    (hwf : Docker.Wf s.docker) : Docker.Wf s2.docker := by
  simp only [sync_feeds] at hok
  split at hok
  · cases hok; exact hwf
  · split at hok
    · cases hok; exact hwf
    · cases load with
      | failure => cases hok
      | success fs =>
        cases fs with
        | notMapping => cases hok; exact hwf
        | mapping new_feeds =>
          simp only at hok
          cases hok
          exact wf_sync_body cfg s _ new_feeds hwf

theorem wf_runPasses (cfg : Config) (passes : List (Nat × LoadResult)) :
    ∀ gs : GState × Sys, Docker.Wf gs.2.docker →
      Docker.Wf (runPasses cfg gs passes).2.docker := by
  induction passes with
  | nil => intro gs hwf; exact hwf
  | cons p rest ih =>
    intro gs hwf
    obtain ⟨m, l⟩ := p
    simp only [runPasses]
    cases hres : sync_feeds cfg gs.1 gs.2 m l with
    | ok gs2 => exact ih gs2 (wf_sync_feeds cfg gs.1 gs.2 m l gs2.1 gs2.2 (by
        cases gs2; exact hres) hwf)
    | error c => exact hwf

/-! Helper lemmas characterising the behaviour of the spawning functions:
lookups at other container names are untouched, operation traces only
grow, and the success and failure cases of spawn_feed_instance compute to
explicit results. -/

theorem remove_docker_other (cfg : Config) (s : Sys) (fn : String) {k : String}
    (hk : k ≠ docker_container_name cfg fn) :
    List.lookup k (docker_container_remove cfg s fn).docker = List.lookup k s.docker := by
  simp only [docker_container_remove]
  split
  · rfl
  · split
    · rfl
    · exact lookup_filter_out hk

theorem stop_docker_other (cfg : Config) (s : Sys) (fn : String) {k : String}
    (hk : k ≠ docker_container_name cfg fn) :
    List.lookup k (docker_container_stop cfg s fn).docker = List.lookup k s.docker := by
  simp only [docker_container_stop]
  exact lookup_stop_map hk

theorem start_docker_other (cfg : Config) (s : Sys) (fn : String) (f : Feed) {k : String}
    (hk : k ≠ docker_container_name cfg fn) :
    List.lookup k (docker_container_start cfg s fn f).2.docker = List.lookup k s.docker := by
  simp only [docker_container_start]
  split
  · split
    · rfl
    · rw [remove_docker_other cfg _ fn hk, capture_docker]
  · split
    · exact lookup_append_other hk
    · rw [remove_docker_other cfg _ fn hk, capture_docker]
      exact lookup_append_other hk

theorem spawn_docker_other (cfg : Config) (s : Sys) (fn : String) (f : Feed) {k : String}
    (hk : k ≠ docker_container_name cfg fn) :
    List.lookup k (spawn_feed_instance cfg s fn f).2.docker = List.lookup k s.docker := by
  simp only [spawn_feed_instance]
  split
  · rfl
  · split
    · rfl
    · rw [start_docker_other cfg _ fn f hk, remove_docker_other cfg s fn hk]

theorem remove_ops_cover (cfg : Config) (s : Sys) (fn : String) :
    ∀ op ∈ (docker_container_remove cfg s fn).ops,
      op ∈ s.ops ∨ op.name = docker_container_name cfg fn := by
  simp only [docker_container_remove]
  split
  · intro op hop; exact Or.inl hop
  · split
    · intro op hop; exact Or.inl hop
    · intro op hop
      rcases List.mem_append.mp hop with h | h
      · exact Or.inl h
      · right
        simp only [List.mem_singleton] at h
        subst h
        rfl

theorem stop_ops_cover (cfg : Config) (s : Sys) (fn : String) :
    ∀ op ∈ (docker_container_stop cfg s fn).ops,
      op ∈ s.ops ∨ op.name = docker_container_name cfg fn := by
  simp only [docker_container_stop]
  intro op hop
  rcases List.mem_append.mp hop with h | h
  · exact Or.inl h
  · right
    simp only [List.mem_singleton] at h
    subst h
    rfl

theorem capture_ops_cover (cfg : Config) (s : Sys) (fn : String) :
    ∀ op ∈ (docker_container_capture_logs cfg s fn).ops,
      op ∈ s.ops ∨ op.name = docker_container_name cfg fn := by
  simp only [docker_container_capture_logs]
  intro op hop
  rcases List.mem_append.mp hop with h | h
  · exact Or.inl h
  · right
    simp only [List.mem_singleton] at h
    subst h
    rfl

theorem mem_append_run_cover {base : List DockerOp} {n : String} {f : Feed} :
    ∀ op ∈ base ++ [DockerOp.run n f], op ∈ base ∨ op.name = n := by
  intro op hop
  rcases List.mem_append.mp hop with h | h
  · exact Or.inl h
  · right
    simp only [List.mem_singleton] at h
    subst h
    rfl

theorem start_tail_ops_cover (cfg : Config) (fn : String) (s1 : Sys)
    {base : List DockerOp}
    (hcov : ∀ op ∈ s1.ops, op ∈ base ∨ op.name = docker_container_name cfg fn) :
    ∀ op ∈ (docker_container_remove cfg (docker_container_capture_logs cfg s1 fn) fn).ops,
      op ∈ base ∨ op.name = docker_container_name cfg fn := by
  intro op hop
  rcases remove_ops_cover cfg _ fn op hop with h | h
  · rcases capture_ops_cover cfg _ fn op h with h2 | h2
    · exact hcov op h2
    · exact Or.inr h2
  · exact Or.inr h

theorem start_ops_cover (cfg : Config) (s : Sys) (fn : String) (f : Feed) :
    ∀ op ∈ (docker_container_start cfg s fn f).2.ops,
      op ∈ s.ops ∨ op.name = docker_container_name cfg fn := by
  simp only [docker_container_start]
  split
  · split
    · exact mem_append_run_cover
    · exact start_tail_ops_cover cfg fn _ mem_append_run_cover
  · split
    · exact mem_append_run_cover
    · exact start_tail_ops_cover cfg fn _ mem_append_run_cover

theorem spawn_ops_cover (cfg : Config) (s : Sys) (fn : String) (f : Feed) :
    ∀ op ∈ (spawn_feed_instance cfg s fn f).2.ops,
      op ∈ s.ops ∨ op.name = docker_container_name cfg fn := by
  simp only [spawn_feed_instance]
  split
  · intro op hop; exact Or.inl hop
  · split
    · intro op hop; exact Or.inl hop
    · intro op hop
      rcases start_ops_cover cfg _ fn f op hop with h | h
      · exact remove_ops_cover cfg s fn op h
      · exact Or.inr h

theorem spawn_url_none (cfg : Config) (s : Sys) (fn : String) (f : Feed)
    (hu : f.url = none) :
    spawn_feed_instance cfg s fn f =
      (fail_feed f "Missing URL in feed configuration", s) := by
  simp [spawn_feed_instance, hu]

theorem spawn_already_running_eq (cfg : Config) (s : Sys) (fn : String) (f : Feed)
    (hu : f.url.isNone = false)
    (hrun : check_docker_container_running cfg s.docker fn = true) :
    spawn_feed_instance cfg s fn f =
      (fail_feed f "Container is already running. Stop it or give a different name.", s) := by
  simp [spawn_feed_instance, hu, hrun]

theorem spawn_fresh_success (cfg : Config) (s : Sys) (fn : String) (f : Feed)
    (u : String) (hu : f.url = some u)
    (hfree : List.lookup (docker_container_name cfg fn) s.docker = none)
    (hok : cfg.startOk (docker_container_name cfg fn) = true) :
    spawn_feed_instance cfg s fn f =
      (active_feed f,
       { docker := s.docker ++ [(docker_container_name cfg fn, true)],
         ops := s.ops ++ [DockerOp.run (docker_container_name cfg fn) f] }) := by
  have hnone : f.url.isNone = false := by simp [hu]
  have hrun : check_docker_container_running cfg s.docker fn = false := by
    simp [check_docker_container_running, hfree]
  have hrem : docker_container_remove cfg s fn = s := by
    simp [docker_container_remove, hfree]
  have hrun2 : check_docker_container_running cfg
      (s.docker ++ [(docker_container_name cfg fn, true)]) fn = true := by
    simp [check_docker_container_running, List.lookup_append, hfree, List.lookup_cons]
  simp only [spawn_feed_instance, hnone, Bool.false_eq_true, if_false, hrun, hrem,
    docker_container_start, hfree, Option.isSome_none, hok]
  simp [hrun2]

/-! Helper lemmas about the state-threading traversal of the feed list. -/

theorem mapFeeds_names (h : Sys → String → Feed → Feed × Sys) :
    ∀ (l : List (String × Feed)) (s : Sys),
      (mapFeeds h s l).1.map Prod.fst = l.map Prod.fst := by
  intro l
  induction l with
  | nil => intro s; rfl
  | cons nf rest ih =>
    intro s
    obtain ⟨n, f⟩ := nf
    simp only [mapFeeds, List.map_cons]
    rw [ih]

theorem mapFeeds_ext (h1 h2 : Sys → String → Feed → Feed × Sys)
    (hext : ∀ s n f, h1 s n f = h2 s n f) :
    ∀ (l : List (String × Feed)) (s : Sys), mapFeeds h1 s l = mapFeeds h2 s l := by
  intro l
  induction l with
  | nil => intro s; rfl
  | cons nf rest ih =>
    intro s
    obtain ⟨n, f⟩ := nf
    simp only [mapFeeds, hext, ih]

theorem mapFeeds_copy : ∀ (l : List (String × Feed)) (s : Sys),
    mapFeeds (fun s2 _ f => (f, s2)) s l = (l, s) := by
  intro l
  induction l with
  | nil => intro s; rfl
  | cons nf rest ih =>
    intro s
    obtain ⟨n, f⟩ := nf
    simp only [mapFeeds, ih]

theorem process_entry_common_nil (cfg : Config) (s : Sys) (n : String) (f : Feed) :
    process_entry_common cfg [] s n f = (f, s) := rfl

theorem process_entry_added_nil (cfg : Config) (s : Sys) (n : String) (f : Feed) :
    process_entry_added cfg [] s n f = spawn_feed_instance cfg s n f := rfl

theorem sync_body_nil_old (cfg : Config) (s : Sys) (new : List (String × Feed)) :
    sync_body cfg s [] new
      = mapFeeds (fun s2 n f => spawn_feed_instance cfg s2 n f) s new := by
  simp only [sync_body, List.filter_nil, List.foldl_nil]
  rw [mapFeeds_ext _ (fun s2 _ f => (f, s2)) (fun s2 n f => process_entry_common_nil cfg s2 n f),
    mapFeeds_copy]
  exact mapFeeds_ext _ _ (fun s2 n f => process_entry_added_nil cfg s2 n f) new s

theorem mapFeeds_spawn_docker_other (cfg : Config) {k : String} :
    ∀ (l : List (String × Feed)), (∀ nf ∈ l, k ≠ docker_container_name cfg nf.1) →
      ∀ s : Sys,
        List.lookup k (mapFeeds (fun s2 n f => spawn_feed_instance cfg s2 n f) s l).2.docker
          = List.lookup k s.docker := by
  intro l
  induction l with
  | nil => intro _ s; rfl
  | cons nf rest ih =>
    intro hk s
    obtain ⟨n, f⟩ := nf
    simp only [mapFeeds]
    rw [ih (fun nf2 h2 => hk nf2 (List.mem_cons_of_mem _ h2))]
    exact spawn_docker_other cfg s n f (hk (n, f) (List.mem_cons_self _ _))

theorem mapFeeds_spawn_ops_cover (cfg : Config) :
    ∀ (l : List (String × Feed)) (s : Sys),
      ∀ op ∈ (mapFeeds (fun s2 n f => spawn_feed_instance cfg s2 n f) s l).2.ops,
        op ∈ s.ops ∨ ∃ nf ∈ l, op.name = docker_container_name cfg nf.1 := by
  intro l
  induction l with
  | nil => intro s op hop; exact Or.inl hop
  | cons nf rest ih =>
    intro s op hop
    obtain ⟨n, f⟩ := nf
    simp only [mapFeeds] at hop
    rcases ih _ op hop with h | ⟨nf2, hnf2, hname⟩
    · rcases spawn_ops_cover cfg s n f op h with h2 | h2
      · exact Or.inl h2
      · exact Or.inr ⟨(n, f), List.mem_cons_self _ _, h2⟩
    · exact Or.inr ⟨nf2, List.mem_cons_of_mem _ hnf2, hname⟩

theorem mapFeeds_spawn_url_none (cfg : Config) :
    ∀ (l : List (String × Feed)), (l.map Prod.fst).Nodup →
      ∀ (n : String) (f : Feed), (n, f) ∈ l → f.url = none →
        ∀ s : Sys,
          List.lookup n (mapFeeds (fun s2 n2 f2 => spawn_feed_instance cfg s2 n2 f2) s l).1
            = some (fail_feed f "Missing URL in feed configuration") := by
  intro l
  induction l with
  | nil => intro _ n f hmem; cases hmem
  | cons nf rest ih =>
    intro hnodup n f hmem hurl s
    obtain ⟨n0, f0⟩ := nf
    simp only [List.map_cons, List.nodup_cons] at hnodup
    rcases List.mem_cons.mp hmem with heq | hmem2
    · obtain ⟨he1, he2⟩ := Prod.mk.injEq .. ▸ heq
      cases he1
      cases he2
      simp only [mapFeeds]
      rw [lookup_cons_ite, if_pos rfl, spawn_url_none cfg s n f hurl]
    · have hn : n ≠ n0 := by
        intro he
        exact hnodup.1 (he ▸ List.mem_map_of_mem Prod.fst hmem2)
      simp only [mapFeeds]
      rw [lookup_cons_ite, if_neg hn]
      exact ih hnodup.2 n f hmem2 hurl _

theorem mapFeeds_spawn_success (cfg : Config) :
    ∀ (l : List (String × Feed)), (l.map Prod.fst).Nodup →
      ∀ (n : String) (f : Feed) (u : String), (n, f) ∈ l → f.url = some u →
        ∀ s : Sys, List.lookup (docker_container_name cfg n) s.docker = none →
          cfg.startOk (docker_container_name cfg n) = true →
          List.lookup n (mapFeeds (fun s2 n2 f2 => spawn_feed_instance cfg s2 n2 f2) s l).1
            = some (active_feed f) := by
  intro l
  induction l with
  | nil => intro _ n f u hmem; cases hmem
  | cons nf rest ih =>
    intro hnodup n f u hmem hurl s hfree hok
    obtain ⟨n0, f0⟩ := nf
    simp only [List.map_cons, List.nodup_cons] at hnodup
    rcases List.mem_cons.mp hmem with heq | hmem2
    · obtain ⟨he1, he2⟩ := Prod.mk.injEq .. ▸ heq
      cases he1
      cases he2
      simp only [mapFeeds]
      rw [lookup_cons_ite, if_pos rfl, spawn_fresh_success cfg s n f u hurl hfree hok]
    · have hn : n ≠ n0 := by
        intro he
        exact hnodup.1 (he ▸ List.mem_map_of_mem Prod.fst hmem2)
      have hcn : docker_container_name cfg n ≠ docker_container_name cfg n0 :=
        fun he => hn (docker_container_name_inj cfg he)
      simp only [mapFeeds]
      rw [lookup_cons_ite, if_neg hn]
      refine ih hnodup.2 n f u hmem2 hurl _ ?_ hok
      rw [spawn_docker_other cfg s n0 f0 hcn]
      exact hfree

theorem mapFeeds_spawn_no_new_op_for_url_none (cfg : Config) :
    ∀ (l : List (String × Feed)), (l.map Prod.fst).Nodup →
      ∀ (n : String) (f : Feed), (n, f) ∈ l → f.url = none →
        ∀ (s : Sys) (op : DockerOp),
          op ∈ (mapFeeds (fun s2 n2 f2 => spawn_feed_instance cfg s2 n2 f2) s l).2.ops →
          op.name = docker_container_name cfg n → op ∈ s.ops := by
  intro l
  induction l with
  | nil => intro _ n f hmem; cases hmem
  | cons nf rest ih =>
    intro hnodup n f hmem hurl s op hop hname
    obtain ⟨n0, f0⟩ := nf
    simp only [List.map_cons, List.nodup_cons] at hnodup
    simp only [mapFeeds] at hop
    rcases List.mem_cons.mp hmem with heq | hmem2
    · obtain ⟨he1, he2⟩ := Prod.mk.injEq .. ▸ heq
      cases he1
      cases he2
      rw [spawn_url_none cfg s n f hurl] at hop
      rcases mapFeeds_spawn_ops_cover cfg rest _ op hop with h | ⟨nf2, hnf2, hname2⟩
      · exact h
      · exfalso
        have : nf2.1 ≠ n := by
          intro he
          exact hnodup.1 (he ▸ List.mem_map_of_mem Prod.fst hnf2)
        exact this (docker_container_name_inj cfg (hname2.symm.trans hname))
    · have hn : n ≠ n0 := by
        intro he
        exact hnodup.1 (he ▸ List.mem_map_of_mem Prod.fst hmem2)
      have h1 := ih hnodup.2 n f hmem2 hurl _ op hop hname
      rcases spawn_ops_cover cfg s n0 f0 op h1 with h2 | h2
      · exact h2
      · exfalso
        exact hn (docker_container_name_inj cfg (hname.symm.trans h2))

/-! Helper lemmas computing the stop-remove-start path taken for a feed
whose declarative configuration changed. -/

theorem lookup_stop_self {d : Docker} {n : String} :
    List.lookup n (d.map (fun kv => if kv.1 == n then (kv.1, false) else kv))
      = Option.map (fun _ => false) (List.lookup n d) := by
  induction d with
  | nil => rfl
  | cons kv t ih =>
    obtain ⟨k0, b0⟩ := kv
    by_cases h1 : k0 = n
    · subst h1
      simp only [List.map_cons, beq_self_eq_true, if_true]
      rw [lookup_cons_ite, lookup_cons_ite, if_pos rfl, if_pos rfl]
      rfl
    · have hb : (k0 == n) = false := by simpa using h1
      simp only [List.map_cons, hb, Bool.false_eq_true, if_false]
      by_cases h2 : n = k0
      · exact absurd h2.symm h1
      · rw [lookup_cons_ite, lookup_cons_ite, if_neg h2, if_neg h2, ih]

theorem lookup_filter_out_self {d : Docker} {n : String} :
    List.lookup n (d.filter (fun kv => !(kv.1 == n))) = none := by
  induction d with
  | nil => rfl
  | cons kv t ih =>
    obtain ⟨k0, b0⟩ := kv
    by_cases h1 : k0 = n
    · subst h1
      have hb : (!(k0 == k0)) = false := by simp
      simp only [List.filter_cons, hb, Bool.false_eq_true, if_false]
      exact ih
    · have hb : (!(k0 == n)) = true := by simpa using h1
      simp only [List.filter_cons, hb, if_true]
      rw [lookup_cons_ite, if_neg (fun he => h1 he.symm)]
      exact ih

theorem remove_existing_eq (cfg : Config) (s : Sys) (fn : String) {r : Bool}
    (hrc : cfg.remove_containers = true)
    (hexists : List.lookup (docker_container_name cfg fn) s.docker = some r) :
    docker_container_remove cfg s fn =
      { docker := s.docker.filter (fun kv => !(kv.1 == docker_container_name cfg fn)),
        ops := s.ops ++ [DockerOp.remove (docker_container_name cfg fn)] } := by
  simp [docker_container_remove, hexists, hrc]

theorem process_common_changed (cfg : Config) (s : Sys) (old_feed : Feed)
    (fn : String) (new_feed : Feed) (u : String) (b : Bool)
    (hchanged : ¬ old_feed.declarative = new_feed.declarative)
    (hrc : cfg.remove_containers = true)
    (hexists : List.lookup (docker_container_name cfg fn) s.docker = some b)
    (hurl : new_feed.url = some u)
    (hok : cfg.startOk (docker_container_name cfg fn) = true) :
    (process_common cfg s old_feed fn new_feed).1 = active_feed new_feed ∧
    (process_common cfg s old_feed fn new_feed).2.ops =
      s.ops ++ (if b then [DockerOp.stop (docker_container_name cfg fn)] else [])
        ++ [DockerOp.remove (docker_container_name cfg fn),
            DockerOp.run (docker_container_name cfg fn) new_feed] := by
  have hcheck : check_docker_container_running cfg s.docker fn = b := by
    simp [check_docker_container_running, hexists]
  simp only [process_common, if_neg hchanged, hcheck]
  cases b with
  | false =>
    simp only [Bool.false_eq_true, if_false]
    have h2 := remove_existing_eq cfg s fn hrc hexists
    rw [h2]
    rw [spawn_fresh_success cfg _ fn new_feed u hurl (by exact lookup_filter_out_self) hok]
    simp
  | true =>
    simp only [if_true]
    have hexists2 : List.lookup (docker_container_name cfg fn)
        (docker_container_stop cfg s fn).docker = some false := by
      simp only [docker_container_stop]
      rw [lookup_stop_self, hexists]
      rfl
    have h2 := remove_existing_eq cfg (docker_container_stop cfg s fn) fn hrc hexists2
    rw [h2]
    rw [spawn_fresh_success cfg _ fn new_feed u hurl (by exact lookup_filter_out_self) hok]
    simp [docker_container_stop]

/-! Helper lemmas computing sync_feeds in each of its cases. -/

theorem sync_feeds_mtime_zero (cfg : Config) (g : GState) (s : Sys) (load : LoadResult) :
    sync_feeds cfg g s 0 load = .ok (g, s) := by
  simp [sync_feeds]

theorem sync_feeds_skip (cfg : Config) (g : GState) (s : Sys) (m : Nat)
    (load : LoadResult) (hskip : mtime_skip g m = true) :
    sync_feeds cfg g s m load = .ok (g, s) := by
  by_cases hm : m = 0
  · subst hm; exact sync_feeds_mtime_zero cfg g s load
  · simp [sync_feeds, hm, hskip]

theorem sync_feeds_not_mapping (cfg : Config) (g : GState) (s : Sys) (m : Nat) :
    sync_feeds cfg g s m (.success .notMapping) = .ok (g, s) := by
  by_cases hm : m = 0
  · subst hm; exact sync_feeds_mtime_zero cfg g s _
  · by_cases hskip : mtime_skip g m = true
    · exact sync_feeds_skip cfg g s m _ hskip
    · simp only [Bool.not_eq_true] at hskip
      simp [sync_feeds, hm, hskip]

theorem sync_feeds_mapping_run (cfg : Config) (g : GState) (s : Sys) (m : Nat)
    (l : List (String × Feed)) (hm : ¬ m = 0) (hskip : mtime_skip g m = false) :
    sync_feeds cfg g s m (.success (.mapping l)) =
      .ok ({ feeds := some (sync_body cfg s (g.feeds.getD []) l).1,
             config_file_mtime := some m },
           (sync_body cfg s (g.feeds.getD []) l).2) := by
  simp [sync_feeds, hm, hskip]

theorem sync_feeds_error_code (cfg : Config) (g : GState) (s : Sys) (m : Nat)
    (load : LoadResult) (c : Nat) (h : sync_feeds cfg g s m load = .error c) : c = 1 := by
  simp only [sync_feeds] at h
  split at h
  · cases h
  · split at h
    · cases h
    · cases load with
      | failure =>
        injection h with h2
        exact h2.symm
      | success fs =>
        cases fs with
        | notMapping => cases h
        | mapping l => simp only at h; cases h

/-! Concrete engine configuration and feeds used to evaluate the model on
explicit inputs. -/

def cfgEx : Config :=
  { pfx := "p", remove_containers := true, default_sparql_endpoint := "e",
    ldes_loglevel := "info", startOk := fun _ => true }

def feedExA : Feed := { url := some "http://a" }

def feedExB : Feed := { url := some "http://b" }

def feedNoUrl : Feed := {}

def sysRunningA : Sys := { docker := [("p-a", true)], ops := [] }

def sysEmpty : Sys := { docker := [], ops := [] }

def gEmpty : GState := { feeds := none, config_file_mtime := none }

def gAfterA : GState :=
  { feeds := some [("a", active_feed feedExA)], config_file_mtime := some 1 }

def sysAfterA : Sys :=
  { docker := [("p-a", true)], ops := [DockerOp.run "p-a" feedExA] }

/-! Claim C1. -/

/-- C1 counterexample: with a live container already present under the
conventional name, spawn_feed_instance records the feed as failed (active
false, failure reason set) instead of adopting the worker as Running, so
the claim as stated is false on the code. -/
theorem C1_counterexample :
    check_docker_container_running cfgEx sysRunningA.docker "a" = true ∧
    (spawn_feed_instance cfgEx sysRunningA "a" feedExA).1.active = some false ∧
    (spawn_feed_instance cfgEx sysRunningA "a" feedExA).1.failure_reason
      = some "Container is already running. Stop it or give a different name." := by
  refine ⟨by decide, by decide, by decide⟩

/-- C1 (amended): when the conventional container for a configured feed
already exists and is live, the reconciliation issues no duplicate start
and no restart (docker state and operation trace are untouched), but it
records the feed as failed with the already-running reason instead of
adopting the worker as Running. -/
theorem C1_no_duplicate_start (cfg : Config) (s : Sys) (fn : String) (f : Feed)
    (u : String) (hu : f.url = some u)
    (hrun : check_docker_container_running cfg s.docker fn = true) :
    spawn_feed_instance cfg s fn f =
      (fail_feed f "Container is already running. Stop it or give a different name.", s) :=
  spawn_already_running_eq cfg s fn f (by simp [hu]) hrun

/-- C1 witness: the amended claim evaluated on a live container p-a. -/
theorem C1_witness :
    spawn_feed_instance cfgEx sysRunningA "a" feedExA
      = (fail_feed feedExA "Container is already running. Stop it or give a different name.",
         sysRunningA) :=
  C1_no_duplicate_start cfgEx sysRunningA "a" feedExA "http://a" rfl (by decide)

/-! Claim C2. -/

/-- C2: after any sequence of reconciliation passes starting from a
well-formed docker state, at most one live container exists per
conventional worker name; and within one pass, for a feed whose
declarative spec changed, the trace is exactly stop (when the old worker
was running), then remove, then the run of the replacement, so the old
worker is stopped and removed before the new one is started. -/
theorem C2_at_most_one_and_stop_before_start :
    (∀ (cfg : Config) (gs : GState × Sys) (passes : List (Nat × LoadResult)),
       Docker.Wf gs.2.docker → ∀ fn : String,
         liveFor (runPasses cfg gs passes).2.docker (docker_container_name cfg fn) ≤ 1) ∧
    (∀ (cfg : Config) (s : Sys) (old_feed : Feed) (fn : String) (new_feed : Feed)
       (u : String) (b : Bool),
       ¬ old_feed.declarative = new_feed.declarative →
       cfg.remove_containers = true →
       List.lookup (docker_container_name cfg fn) s.docker = some b →
       new_feed.url = some u →
       cfg.startOk (docker_container_name cfg fn) = true →
       (process_common cfg s old_feed fn new_feed).2.ops =
         s.ops ++ (if b then [DockerOp.stop (docker_container_name cfg fn)] else [])
           ++ [DockerOp.remove (docker_container_name cfg fn),
               DockerOp.run (docker_container_name cfg fn) new_feed]) := by
  constructor
  · intro cfg gs passes hwf fn
    exact liveFor_le_one (wf_runPasses cfg passes gs hwf) _
  · intro cfg s old_feed fn new_feed u b h1 h2 h3 h4 h5
    exact (process_common_changed cfg s old_feed fn new_feed u b h1 h2 h3 h4 h5).2

/-- C2 witness: the invariant and the stop-before-start trace evaluated on
one pass that starts feed a, and on a changed feed whose old container is
live. -/
theorem C2_witness :
    liveFor (runPasses cfgEx (gEmpty, sysEmpty)
        [(1, .success (.mapping [("a", feedExA)]))]).2.docker
        (docker_container_name cfgEx "a") ≤ 1 ∧
    (process_common cfgEx sysRunningA feedExB "a" feedExA).2.ops =
      sysRunningA.ops ++ (if true then [DockerOp.stop (docker_container_name cfgEx "a")] else [])
        ++ [DockerOp.remove (docker_container_name cfgEx "a"),
            DockerOp.run (docker_container_name cfgEx "a") feedExA] :=
  ⟨C2_at_most_one_and_stop_before_start.1 cfgEx (gEmpty, sysEmpty)
      [(1, .success (.mapping [("a", feedExA)]))] (by simp [Docker.Wf, sysEmpty]) "a",
   C2_at_most_one_and_stop_before_start.2 cfgEx sysRunningA feedExB "a" feedExA
      "http://a" true (by decide) rfl (by decide) rfl rfl⟩

/-! Claim C3. -/

/-- C3: a second sync_feeds immediately after a completed pass, with the
file modification time unchanged and whatever the config would load to,
returns the state it was given: no docker operation is issued and every
feed record, handle and status included, is left unchanged. -/
theorem C3_idempotent_second_pass (cfg : Config) (g : GState) (s : Sys) (m : Nat)
    (l : List (String × Feed)) (g2 : GState) (s2 : Sys) (load2 : LoadResult)
    (hm : ¬ m = 0) (hskip : mtime_skip g m = false)
    (h1 : sync_feeds cfg g s m (.success (.mapping l)) = .ok (g2, s2)) :
    sync_feeds cfg g2 s2 m load2 = .ok (g2, s2) := by
  rw [sync_feeds_mapping_run cfg g s m l hm hskip] at h1
  injection h1 with h2
  rw [Prod.mk.injEq] at h2
  obtain ⟨hg, hs⟩ := h2
  apply sync_feeds_skip
  rw [← hg]
  simp [mtime_skip]

/-- C3 witness: the second pass after starting feed a returns the state
unchanged. -/
theorem C3_witness :
    sync_feeds cfgEx gAfterA sysAfterA 1 (.success (.mapping [("a", feedExA)]))
      = .ok (gAfterA, sysAfterA) :=
  C3_idempotent_second_pass cfgEx gEmpty sysEmpty 1 [("a", feedExA)] gAfterA sysAfterA
    (.success (.mapping [("a", feedExA)])) (by decide) (by decide) rfl

/-! Claim C4. -/

/-- C4: evaluation of the monitoring step on an active feed whose
container exists but is stopped (the normal situation after a worker
crash, since nothing removes the exited container before the restart):
the docker run issued by docker_container_start conflicts with the
existing name, a second log capture is taken, the container is removed
and the feed is marked failed — the feed does not come back to Running
and logs are captured twice, contradicting the claim. -/
theorem C4_crash_restart_fails :
    monitor_feed cfgEx { docker := [("p-a", false)], ops := [] } "a" (active_feed feedExA)
      = (fail_feed (active_feed feedExA) "Container failed to start.",
         { docker := [],
           ops := [DockerOp.captureLogs "p-a", DockerOp.run "p-a" (active_feed feedExA),
                   DockerOp.captureLogs "p-a", DockerOp.remove "p-a"] }) := by
  decide

/-! Claim C5. -/

/-- C5: in an initial reconciliation pass over a loaded feed set with
distinct names, an entry lacking its url is recorded as failed with the
missing-url reason and no run operation is ever issued for its container
name, while every other entry with a url, a free container name and a
succeeding start reaches the active (Running) state — the invalid entry
does not abort the pass. -/
theorem C5_invalid_feed_isolation (cfg : Config) (s : Sys) (m : Nat)
    (new : List (String × Feed)) (g2 : GState) (s2 : Sys)
    (hnodup : (new.map Prod.fst).Nodup) (hm : ¬ m = 0)
    (h1 : sync_feeds cfg gEmpty s m (.success (.mapping new)) = .ok (g2, s2))
    (n : String) (f : Feed) (hmem : (n, f) ∈ new) (hurl : f.url = none) :
    (∃ feeds2, g2.feeds = some feeds2 ∧
       List.lookup n feeds2 = some (fail_feed f "Missing URL in feed configuration")) ∧
    (∀ fd : Feed, DockerOp.run (docker_container_name cfg n) fd ∈ s2.ops →
       DockerOp.run (docker_container_name cfg n) fd ∈ s.ops) ∧
    (∀ (n2 : String) (f2 : Feed) (u : String), (n2, f2) ∈ new → f2.url = some u →
       List.lookup (docker_container_name cfg n2) s.docker = none →
       cfg.startOk (docker_container_name cfg n2) = true →
       ∃ feeds2, g2.feeds = some feeds2 ∧
         List.lookup n2 feeds2 = some (active_feed f2)) := by
  rw [sync_feeds_mapping_run cfg gEmpty s m new hm (by simp [mtime_skip, gEmpty])] at h1
  injection h1 with h2
  rw [Prod.mk.injEq] at h2
  obtain ⟨hg, hs⟩ := h2
  have hold : (gEmpty.feeds.getD []) = ([] : List (String × Feed)) := by simp [gEmpty]
  rw [hold, sync_body_nil_old] at hg hs
  refine ⟨?_, ?_, ?_⟩
  · refine ⟨(mapFeeds (fun s2 n2 f2 => spawn_feed_instance cfg s2 n2 f2) s new).1,
      by rw [← hg], ?_⟩
    exact mapFeeds_spawn_url_none cfg new hnodup n f hmem hurl s
  · intro fd hop
    rw [← hs] at hop
    exact mapFeeds_spawn_no_new_op_for_url_none cfg new hnodup n f hmem hurl s _ hop rfl
  · intro n2 f2 u hmem2 hurl2 hfree2 hok2
    refine ⟨(mapFeeds (fun s2 n2 f2 => spawn_feed_instance cfg s2 n2 f2) s new).1,
      by rw [← hg], ?_⟩
    exact mapFeeds_spawn_success cfg new hnodup n2 f2 u hmem2 hurl2 s hfree2 hok2

def g5Ex : GState :=
  { feeds := some [("a", fail_feed feedNoUrl "Missing URL in feed configuration"),
                   ("b", active_feed feedExB)],
    config_file_mtime := some 1 }

def s5Ex : Sys := { docker := [("p-b", true)], ops := [DockerOp.run "p-b" feedExB] }

/-- C5 witness: the isolation property evaluated on the set with invalid
feed a and valid feed b. -/
theorem C5_witness :
    ((∃ feeds2, g5Ex.feeds = some feeds2 ∧
        List.lookup "a" feeds2
          = some (fail_feed feedNoUrl "Missing URL in feed configuration")) ∧
     (∀ fd : Feed, DockerOp.run (docker_container_name cfgEx "a") fd ∈ s5Ex.ops →
        DockerOp.run (docker_container_name cfgEx "a") fd ∈ sysEmpty.ops) ∧
     (∀ (n2 : String) (f2 : Feed) (u : String),
        (n2, f2) ∈ [("a", feedNoUrl), ("b", feedExB)] → f2.url = some u →
        List.lookup (docker_container_name cfgEx n2) sysEmpty.docker = none →
        cfgEx.startOk (docker_container_name cfgEx n2) = true →
        ∃ feeds2, g5Ex.feeds = some feeds2 ∧
          List.lookup n2 feeds2 = some (active_feed f2))) :=
  C5_invalid_feed_isolation cfgEx sysEmpty 1 [("a", feedNoUrl), ("b", feedExB)]
    g5Ex s5Ex (by decide) (by decide) rfl "a" feedNoUrl (by decide) rfl

/-! Claim C6. -/

/-- C6: for a feed present in both states whose declarative configuration
(all fields except active, process and failure_reason) differs by value,
reconciliation stops the existing worker when it is running, removes it,
and starts a replacement whose run operation carries the new
configuration; with a succeeding start the resulting record is active. -/
theorem C6_spec_change_restart (cfg : Config) (s : Sys) (old_feed : Feed)
    (fn : String) (new_feed : Feed) (u : String) (b : Bool)
    (hchanged : ¬ old_feed.declarative = new_feed.declarative)
    (hrc : cfg.remove_containers = true)
    (hexists : List.lookup (docker_container_name cfg fn) s.docker = some b)
    (hurl : new_feed.url = some u)
    (hok : cfg.startOk (docker_container_name cfg fn) = true) :
    (process_common cfg s old_feed fn new_feed).1 = active_feed new_feed ∧
    (process_common cfg s old_feed fn new_feed).2.ops =
      s.ops ++ (if b then [DockerOp.stop (docker_container_name cfg fn)] else [])
        ++ [DockerOp.remove (docker_container_name cfg fn),
            DockerOp.run (docker_container_name cfg fn) new_feed] :=
  process_common_changed cfg s old_feed fn new_feed u b hchanged hrc hexists hurl hok

def sysStoppedA : Sys := { docker := [("p-a", false)], ops := [] }

/-- C6 witness: restart of feed a after its url changed, old container
present but stopped. -/
theorem C6_witness :
    (process_common cfgEx sysStoppedA feedExA "a" feedExB).1 = active_feed feedExB ∧
    (process_common cfgEx sysStoppedA feedExA "a" feedExB).2.ops =
      sysStoppedA.ops
        ++ (if false then [DockerOp.stop (docker_container_name cfgEx "a")] else [])
        ++ [DockerOp.remove (docker_container_name cfgEx "a"),
            DockerOp.run (docker_container_name cfgEx "a") feedExB] :=
  C6_spec_change_restart cfgEx sysStoppedA feedExA "a" feedExB "http://b" false
    (by decide) rfl (by decide) rfl rfl

/-! Claim C7. -/

/-- C7: the startup portion of main never exits with code 0 (every exit
path there is code 1); when load_config fails or the modification time
reads as 0 the process exits nonzero; and the monitoring phase — the only
phase from which the signal handler can later exit with code 0 — is
entered only when at least one feed is recorded active after the initial
reconciliation. -/
theorem C7_exit_codes :
    (∀ (cfg : Config) (argc : Nat) (s0 : Sys) (m : Nat) (load : LoadResult) (c : Nat),
       main_startup cfg argc s0 m load = .exitCode c → c = 1) ∧
    (∀ (cfg : Config) (argc : Nat) (s0 : Sys) (m : Nat),
       main_startup cfg argc s0 m .failure = .exitCode 1) ∧
    (∀ (cfg : Config) (argc : Nat) (s0 : Sys) (m : Nat) (load : LoadResult)
       (g : GState) (s : Sys),
       main_startup cfg argc s0 m load = .monitoring g s → get_active_feeds g ≠ []) := by
  refine ⟨?_, ?_, ?_⟩
  · intro cfg argc s0 m load c h
    simp only [main_startup] at h
    split at h
    · injection h with h2
      exact h2.symm
    · cases hres : sync_feeds cfg { feeds := none, config_file_mtime := none } s0 m load with
      | error c2 =>
        rw [hres] at h
        simp only at h
        injection h with h2
        rw [← h2]
        exact sync_feeds_error_code cfg _ s0 m load c2 hres
      | ok gs =>
        rw [hres] at h
        simp only at h
        split at h
        · injection h with h2
          exact h2.symm
        · exact StartupOutcome.noConfusion h
  · intro cfg argc s0 m
    simp only [main_startup]
    split
    · rfl
    · by_cases hm : m = 0
      · subst hm
        rw [sync_feeds_mtime_zero]
        simp [get_active_feeds]
      · have herr : sync_feeds cfg { feeds := none, config_file_mtime := none } s0 m
            .failure = .error 1 := by
          simp [sync_feeds, hm, mtime_skip]
        rw [herr]
  · intro cfg argc s0 m load g s h
    simp only [main_startup] at h
    split at h
    · exact StartupOutcome.noConfusion h
    · cases hres : sync_feeds cfg { feeds := none, config_file_mtime := none } s0 m load with
      | error c2 =>
        rw [hres] at h
        simp only at h
        exact StartupOutcome.noConfusion h
      | ok gs =>
        rw [hres] at h
        simp only at h
        split at h
        · exact StartupOutcome.noConfusion h
        · next hcond =>
          injection h with hg hs
          subst hg
          intro hnil
          exact hcond (by rw [hnil]; rfl)

/-- C7 witness: the three parts evaluated on missing arguments, a failing
load, and a successful initial pass that starts feed a. -/
theorem C7_witness :
    (1 = 1) ∧
    main_startup cfgEx 2 sysEmpty 1 .failure = .exitCode 1 ∧
    get_active_feeds gAfterA ≠ [] :=
  ⟨C7_exit_codes.1 cfgEx 0 sysEmpty 0 .failure 1 rfl,
   C7_exit_codes.2.1 cfgEx 2 sysEmpty 1,
   C7_exit_codes.2.2 cfgEx 2 sysEmpty 1 (.success (.mapping [("a", feedExA)]))
     gAfterA sysAfterA rfl⟩

/-! Claim C8. -/

/-- C8: with a per-feed environment sub-map that is a mapping, the
pass-through part of the worker environment is exactly the entries whose
key is not reserved, in order and with values verbatim; every
non-reserved entry ends up in the assembled worker environment, and every
reserved-key entry is rejected from the pass-through. -/
theorem C8_env_passthrough (cfg : Config) (fn : String) (feed : Feed)
    (entries : List (String × String))
    (henv : feed.environment = some (.map entries)) :
    extra_env_part feed.environment
      = entries.filter (fun kv => !(reserved_env_keys.contains kv.1)) ∧
    (∀ k v, (k, v) ∈ entries → reserved_env_keys.contains k = false →
       (k, v) ∈ build_env cfg fn feed) ∧
    (∀ k v, (k, v) ∈ entries → reserved_env_keys.contains k = true →
       (k, v) ∉ extra_env_part feed.environment) := by
  refine ⟨by rw [henv]; rfl, ?_, ?_⟩
  · intro k v hmem hres
    have hin : (k, v) ∈ extra_env_part feed.environment := by
      rw [henv]
      simp only [extra_env_part]
      exact List.mem_filter.mpr ⟨hmem, by simpa using hres⟩
    simp only [build_env]
    apply List.mem_append_left
    apply List.mem_append_left
    apply List.mem_append_left
    apply List.mem_append_left
    apply List.mem_append_left
    apply List.mem_append_right
    exact hin
  · intro k v hmem hres hin
    rw [henv] at hin
    simp only [extra_env_part] at hin
    have h2 := (List.mem_filter.mp hin).2
    simp only [Bool.not_eq_true] at h2
    rw [hres] at h2
    cases h2

def feedEnvEx : Feed :=
  { url := some "http://a",
    environment := some (.map [("FOO", "1"), ("LDES", "x")]) }

/-- C8 witness: the pass-through evaluated on one free key FOO and one
reserved key LDES. -/
theorem C8_witness :
    extra_env_part feedEnvEx.environment
      = ([("FOO", "1"), ("LDES", "x")] : List (String × String)).filter
          (fun kv => !(reserved_env_keys.contains kv.1)) ∧
    ("FOO", "1") ∈ build_env cfgEx "a" feedEnvEx ∧
    ("LDES", "x") ∉ extra_env_part feedEnvEx.environment :=
  ⟨(C8_env_passthrough cfgEx "a" feedEnvEx [("FOO", "1"), ("LDES", "x")] rfl).1,
   (C8_env_passthrough cfgEx "a" feedEnvEx [("FOO", "1"), ("LDES", "x")] rfl).2.1
     "FOO" "1" (by decide) (by decide),
   (C8_env_passthrough cfgEx "a" feedEnvEx [("FOO", "1"), ("LDES", "x")] rfl).2.2
     "LDES" "x" (by decide) (by decide)⟩

/-! Claim C9. -/

def oldFeedInvEx : Feed := { url := some "http://a", active := some true }

def newFeedBadEx : Feed := { url := some "http://a", failure_reason := some "boom" }

/-- C9 counterexample: the unchanged-feed copy path does not always
preserve the invariant from the old record: a freshly loaded entry that
itself carries a failure_reason key (excluded from the declarative
comparison) keeps it while inheriting active true from the old record,
yielding a record that is active and carries a failure reason. -/
theorem C9_counterexample :
    FeedInv oldFeedInvEx ∧
    oldFeedInvEx.declarative = newFeedBadEx.declarative ∧
    (process_common cfgEx sysEmpty oldFeedInvEx "a" newFeedBadEx).1.active = some true ∧
    (process_common cfgEx sysEmpty oldFeedInvEx "a" newFeedBadEx).1.failure_reason
      = some "boom" := by
  refine ⟨?_, by decide, by decide, by decide⟩
  unfold FeedInv
  decide

/-- C9 (amended): a successful start activates the record and removes any
previous failure reason, a failure deactivates it and records the reason
(both preserve the invariant that an active record carries no failure
reason), and the unchanged-feed copy path preserves the invariant from
the old record provided the freshly loaded entry does not itself carry a
failure_reason key. -/
theorem C9_record_invariant :
    (∀ (f : Feed) (r : String), FeedInv (fail_feed f r)) ∧
    (∀ f : Feed, FeedInv (active_feed f)) ∧
    (∀ old_feed new_feed : Feed, FeedInv old_feed → new_feed.failure_reason = none →
       FeedInv (copy_runtime old_feed new_feed)) := by
  refine ⟨?_, ?_, ?_⟩
  · intro f r h
    exact absurd h (by simp [fail_feed])
  · intro f _h
    rfl
  · intro old_feed new_feed hold hnew h
    have h2 : old_feed.active.getD false = true := by
      have h3 : some (old_feed.active.getD false) = some true := h
      injection h3
    have h4 : old_feed.active = some true := by
      cases hoa : old_feed.active with
      | none => rw [hoa] at h2; simp at h2
      | some b => rw [hoa] at h2; simp at h2; rw [h2]
    have h5 := hold h4
    show (match old_feed.failure_reason with
          | some r => some r
          | none => new_feed.failure_reason) = none
    rw [h5]
    exact hnew

/-- C9 witness: the copy path applied to an invariant-satisfying old
record and a loaded entry without failure_reason. -/
theorem C9_witness : FeedInv (copy_runtime oldFeedInvEx feedExA) :=
  C9_record_invariant.2.2 oldFeedInvEx feedExA (by unfold FeedInv; decide) rfl

/-! Claim C10. -/

/-- C10: when the modification time of the config file reads as the error
value 0, or when the freshly loaded feeds section is not a mapping,
sync_feeds returns the global feed state and the recorded modification
time unchanged and issues no container operation. -/
theorem C10_sync_error_paths (cfg : Config) (g : GState) (s : Sys) (m : Nat)
    (load : LoadResult) :
    sync_feeds cfg g s 0 load = .ok (g, s) ∧
    sync_feeds cfg g s m (.success .notMapping) = .ok (g, s) :=
  ⟨sync_feeds_mtime_zero cfg g s load, sync_feeds_not_mapping cfg g s m⟩

end KGap
